import Mathlib

/-!
Shallow embedding of the text-to-document parser of the coptic-parts
repository (services/contentService.ts, `ContentService.parseTextToLibrary`,
together with `ContentService.slugify` and the document model of types.ts).

The source is a line-by-line state machine that builds the library tree by
mutation through aliased references: a category is pushed into the library
when created and mutated afterwards, a book into the category's children, a
section into the book's sections, a part into the section's parts.  The
embedding threads an explicit `ParserState` through a fold over the lines.
The nodes currently being mutated are held outside the closed tree together
with a flag recording whether the original pushed them into their parent
(`bookAttached`, `secAttached`, `partAttached`); `renderLibrary` reassembles
the tree exactly as the aliased mutations would have left it.
-/

namespace ContentService

/-- Language enum of types.ts (values 'EN', 'COP', 'AR', 'TRAN-EN', 'TRAN-AR'). -/
inductive Language where
  | ENGLISH
  | COPTIC
  | ARABIC
  | TRANSLITERATED_ENGLISH
  | TRANSLITERATED_ARABIC
deriving DecidableEq, Repr

/-- LiturgicalPart of types.ts.  The `content` object maps Language keys to
paragraph arrays; a JS object with lazily created keys is embedded as an
insertion-ordered association list, so a key present with an empty array is
distinct from an absent key, as in the source.  The optional `title` field is
never set by the parser and is omitted. -/
structure LiturgicalPart where
  id : String
  type : String
  content : List (Language × List String)
deriving DecidableEq, Repr

/-- LiturgySection of types.ts. -/
structure LiturgySection where
  id : String
  title : String
  parts : List LiturgicalPart
deriving DecidableEq, Repr

/-- LibraryItem of types.ts with type = 'book': carries `sections`.  The
parser only ever creates books as children of categories, so the tagged
union LibraryItem is split into `BookItem` and `CategoryItem`. -/
structure BookItem where
  id : String
  title : String
  sections : List LiturgySection
deriving DecidableEq, Repr

/-- LibraryItem of types.ts with type = 'category': carries `children`. -/
structure CategoryItem where
  id : String
  title : String
  children : List BookItem
deriving DecidableEq, Repr

/-- Whitespace class used by JS `trim()` and by `\s` in the slugify regexes
(the ASCII whitespace characters plus NBSP and the BOM; the exotic Unicode
space characters never occur in the inputs of interest). -/
def jsWhitespace (c : Char) : Bool :=
  c = ' ' || c = '\t' || c = '\n' || c = '\r' || c = '\x0b' || c = '\x0c' ||
  c = '\u00A0' || c = '\uFEFF'

/-- JS `String.prototype.trim`. -/
def jsTrim (s : String) : String :=
  ⟨((s.data.dropWhile fun c => jsWhitespace c).reverse.dropWhile fun c =>
      jsWhitespace c).reverse⟩

/-- JS `String.prototype.toUpperCase` (ASCII; the language tags compared with
it are ASCII). -/
def jsToUpper (s : String) : String :=
  ⟨s.data.map Char.toUpper⟩

/-- JS `String.prototype.toLowerCase` (ASCII). -/
def jsToLower (s : String) : String :=
  ⟨s.data.map Char.toLower⟩

/-- JS `String.prototype.startsWith`. -/
def jsStartsWith (s pat : String) : Bool :=
  pat.data.isPrefixOf s.data

/-- Remove the first occurrence of `pat`: JS `s.replace(pat, '')` with a
string pattern, which replaces only the first match. -/
def removeFirstList (pat : List Char) : List Char → List Char
  | [] => []
  | c :: cs =>
    if pat.isPrefixOf (c :: cs) then (c :: cs).drop pat.length
    else c :: removeFirstList pat cs

/-- JS `s.replace(pat, '')` on strings. -/
def removeFirst (pat s : String) : String :=
  ⟨removeFirstList pat.data s.data⟩

/-- JS `text.split('\n')`: every segment is kept, including empty ones, and
the empty string splits to `[""]`. -/
def splitNlAux : List Char → List Char → List String
  | [], acc => [⟨acc.reverse⟩]
  | c :: cs, acc =>
    if c = '\n' then ⟨acc.reverse⟩ :: splitNlAux cs []
    else splitNlAux cs (c :: acc)

/-- JS `text.split('\n')`. -/
def jsSplitNewline (s : String) : List String :=
  splitNlAux s.data []

/-- `\w` of the slugify regex: `[A-Za-z0-9_]`. -/
def isWordChar (c : Char) : Bool :=
  c.isAlpha || c.isDigit || c = '_'

/-- Characters kept by `.replace(/[^\w\s-]/g, '')`. -/
def slugKeep (c : Char) : Bool :=
  isWordChar c || jsWhitespace c || c = '-'

/-- Character class `[\s_-]` of the collapsing regex. -/
def slugSep (c : Char) : Bool :=
  jsWhitespace c || c = '_' || c = '-'

/-- `.replace(/[\s_-]+/g, '-')`: each maximal run of separator characters
becomes a single hyphen.  The Bool argument records whether the previous
character belonged to a run. -/
def collapseSeps : Bool → List Char → List Char
  | _, [] => []
  | inRun, c :: cs =>
    if slugSep c then
      if inRun then collapseSeps true cs else '-' :: collapseSeps true cs
    else c :: collapseSeps false cs

/-- ContentService.slugify:
`text.toLowerCase().trim().replace(/[^\w\s-]/g, '').replace(/[\s_-]+/g, '-').replace(/^-+|-+$/g, '')`. -/
def slugify (text : String) : String :=
  let kept := (jsTrim (jsToLower text)).data.filter slugKeep
  let collapsed := collapseSeps false kept
  ⟨((collapsed.dropWhile fun c => c = '-').reverse.dropWhile fun c =>
      c = '-').reverse⟩

/-- Key lookup in a part's `content` object: is the language key present?
JS `!content[lang]` is false exactly when the key holds an array (even an
empty one). -/
def contentHas (content : List (Language × List String)) (lang : Language) :
    Bool :=
  content.any fun e => e.1 = lang

/-- `if (!content[lang]) content[lang] = []`: create the key with an empty
array when absent. -/
def contentEnsure (content : List (Language × List String)) (lang : Language) :
    List (Language × List String) :=
  if contentHas content lang then content else content ++ [(lang, [])]

/-- `content[lang]!.push(s)`: append to the array held under the key. -/
def contentPush (content : List (Language × List String)) (lang : Language)
    (s : String) : List (Language × List String) :=
  content.map fun e => if e.1 = lang then (e.1, e.2 ++ [s]) else e

/-- The paragraph list under a language key, `[]` when the key is absent. -/
def contentGetD (content : List (Language × List String)) (lang : Language) :
    List String :=
  ((content.find? fun e => e.1 = lang).map fun e => e.2).getD []

/-- The five cursor variables of parseTextToLibrary plus `partCount`, with
the closed part of the library and the attachment flags of the aliasing
model. -/
structure ParserState where
  library : List CategoryItem
  currentCat : Option CategoryItem
  currentBook : Option BookItem
  bookAttached : Bool
  currentSection : Option LiturgySection
  secAttached : Bool
  currentPart : Option LiturgicalPart
  partAttached : Bool
  currentLang : Option Language
  partCount : Nat
deriving DecidableEq, Repr

/-- Initial cursor state: all cursors null, partCount 0, empty library. -/
def initState : ParserState :=
  { library := [], currentCat := none, currentBook := none,
    bookAttached := false, currentSection := none, secAttached := false,
    currentPart := none, partAttached := false, currentLang := none,
    partCount := 0 }

/-- The live part as the original's aliasing left it inside the live
section: when the part was pushed into the section at creation, it sits at
the end of the section's part list. -/
def flushPartIntoSection (st : ParserState) : Option LiturgySection :=
  match st.currentSection with
  | none => none
  | some s =>
    if st.partAttached then
      match st.currentPart with
      | some p => some { s with parts := s.parts ++ [p] }
      | none => some s
    else some s

/-- The live section (with its live part) as pushed into the live book. -/
def flushSectionIntoBook (st : ParserState) : Option BookItem :=
  match st.currentBook with
  | none => none
  | some b =>
    if st.secAttached then
      match flushPartIntoSection st with
      | some s => some { b with sections := b.sections ++ [s] }
      | none => some b
    else some b

/-- The live book (with its live section and part) as pushed into the live
category. -/
def flushBookIntoCat (st : ParserState) : Option CategoryItem :=
  match st.currentCat with
  | none => none
  | some c =>
    if st.bookAttached then
      match flushSectionIntoBook st with
      | some b => some { c with children := c.children ++ [b] }
      | none => some c
    else some c

/-- The library as the aliased mutations of the original left it: the closed
categories followed by the live category (a category is always pushed into
the library at creation). -/
def renderLibrary (st : ParserState) : List CategoryItem :=
  st.library ++ (match flushBookIntoCat st with | some c => [c] | none => [])

/-- JS `currentBook?.title || ''`.  When the title is the empty string the
`|| ''` also yields the empty string, so the match is exact. -/
def bookTitleOrEmpty (st : ParserState) : String :=
  match st.currentBook with
  | some b => b.title
  | none => ""

/-- JS `currentCat?.title || ''`. -/
def catTitleOrEmpty (st : ParserState) : String :=
  match st.currentCat with
  | some c => c.title
  | none => ""

/-- The `createNewPart` closure: increment partCount, build a part whose id
is `part-` + (currentSection?.id || 'root') + `-` + partCount, and push it
into the current section when one exists. -/
def createNewPart (st : ParserState) : ParserState :=
  let sec := flushPartIntoSection st
  let cnt := st.partCount + 1
  let base :=
    match sec with
    | some s => if s.id = "" then "root" else s.id
    | none => "root"
  let part : LiturgicalPart :=
    { id := "part-" ++ base ++ "-" ++ toString cnt, type := "prayer",
      content := [] }
  { st with
    currentSection := sec, partCount := cnt, currentPart := some part,
    partAttached := sec.isSome }

/-- Branch for a line whose trimmed text starts with `###`: open a section
under the current book, reset partCount, create its first part, clear the
active language. -/
def doSection (st : ParserState) (trimmed : String) : ParserState :=
  let title := jsTrim (removeFirst "###" trimmed)
  let sec : LiturgySection :=
    { id := "sec-" ++ slugify (bookTitleOrEmpty st) ++ "-" ++ slugify title,
      title := title, parts := [] }
  let b := flushSectionIntoBook st
  let st' : ParserState :=
    { st with
      currentBook := b, currentSection := some sec,
      secAttached := b.isSome, currentPart := none, partAttached := false,
      partCount := 0 }
  { createNewPart st' with currentLang := none }

/-- Branch for `##`: open a book under the current category, clear section
and part. -/
def doBook (st : ParserState) (trimmed : String) : ParserState :=
  let title := jsTrim (removeFirst "##" trimmed)
  let book : BookItem :=
    { id := "book-" ++ slugify (catTitleOrEmpty st) ++ "-" ++ slugify title,
      title := title, sections := [] }
  let c := flushBookIntoCat st
  { st with
    currentCat := c, currentBook := some book,
    bookAttached := c.isSome, currentSection := none, secAttached := false,
    currentPart := none, partAttached := false }

/-- Branch for `#`: open a category appended to the library, clear book,
section and part. -/
def doCat (st : ParserState) (trimmed : String) : ParserState :=
  let title := jsTrim (removeFirst "#" trimmed)
  let cat : CategoryItem :=
    { id := "cat-" ++ slugify title, title := title, children := [] }
  { st with
    library := renderLibrary st, currentCat := some cat,
    currentBook := none, bookAttached := false, currentSection := none,
    secAttached := false, currentPart := none, partAttached := false }

/-- Branch for a trimmed line equal to `---`: new part, language reset. -/
def doDelim (st : ParserState) : ParserState :=
  { createNewPart st with currentLang := none }

/-- Branch for a language tag line. -/
def setLang (st : ParserState) (lang : Language) : ParserState :=
  { st with currentLang := some lang }

/-- Fall-through branch: with an active language and a current part, ensure
the language key and append the trimmed line when non-empty; otherwise the
line is ignored. -/
def doContent (st : ParserState) (trimmed : String) : ParserState :=
  match st.currentLang, st.currentPart with
  | some lang, some p =>
    let c1 := contentEnsure p.content lang
    let c2 := if trimmed = "" then c1 else contentPush c1 lang trimmed
    { st with currentPart := some { p with content := c2 } }
  | _, _ => st

/-- The precedence-ordered pattern dispatch of the `lines.forEach` body —
everything after the blank-line early return, first match wins. -/
def dispatchTrimmed (st : ParserState) (trimmed : String) : ParserState :=
  if jsStartsWith trimmed "###" then doSection st trimmed
  else if jsStartsWith trimmed "##" then doBook st trimmed
  else if jsStartsWith trimmed "#" then doCat st trimmed
  else if trimmed = "---" then doDelim st
  else if jsToUpper trimmed = "[EN]" then setLang st Language.ENGLISH
  else if jsToUpper trimmed = "[COP]" then setLang st Language.COPTIC
  else if jsToUpper trimmed = "[AR]" then setLang st Language.ARABIC
  else if jsToUpper trimmed = "[TRAN-EN]" then
    setLang st Language.TRANSLITERATED_ENGLISH
  else if jsToUpper trimmed = "[TRAN-AR]" then
    setLang st Language.TRANSLITERATED_ARABIC
  else doContent st trimmed

/-- One iteration of the `lines.forEach` body, as a function of the trimmed
line (the body only ever reads `trimmed`): the early return
`if (!trimmed && !currentLang) return` followed by the dispatch. -/
def stepTrimmed (st : ParserState) (trimmed : String) : ParserState :=
  if trimmed = "" ∧ st.currentLang = none then st
  else dispatchTrimmed st trimmed

/-- One iteration of the `lines.forEach` body on a raw line. -/
def stepLine (st : ParserState) (line : String) : ParserState :=
  stepTrimmed st (jsTrim line)

/-- Run the forEach over a list of lines from the initial state. -/
def runLines (lines : List String) : ParserState :=
  lines.foldl stepLine initState

/-- The library produced from a list of lines. -/
def parseLines (lines : List String) : List CategoryItem :=
  renderLibrary (runLines lines)

/-- ContentService.parseTextToLibrary: empty or whitespace-only text short
circuits to the empty library, otherwise the text is split on newlines and
folded through the state machine. -/
def parseTextToLibrary (text : String) : List CategoryItem :=
  if jsTrim text = "" then [] else parseLines (jsSplitNewline text)

/-! Invariant and simulation predicates used by the theorems below. -/

/-- A section's identifier is the `sec-` scope tag, the slug of the given
book title, a hyphen, and the slug of its own title. -/
def sectionIdOK (bt : String) (s : LiturgySection) : Prop :=
  s.id = "sec-" ++ slugify bt ++ "-" ++ slugify s.title

/-- Every section of the book carries the namespaced identifier. -/
def bookIdsOK (b : BookItem) : Prop :=
  ∀ s ∈ b.sections, sectionIdOK b.title s

/-- Every book of the category satisfies `bookIdsOK`. -/
def catIdsOK (c : CategoryItem) : Prop :=
  ∀ b ∈ c.children, bookIdsOK b

/-- Every category of the library satisfies `catIdsOK`. -/
def libIdsOK (L : List CategoryItem) : Prop :=
  ∀ c ∈ L, catIdsOK c

/-- Identifier invariant carried through the parse: it holds of the closed
library, of the live category and book, and of the live section relative to
the book it was attached to. -/
def idsOK (st : ParserState) : Prop :=
  libIdsOK st.library ∧
  (∀ c, st.currentCat = some c → catIdsOK c) ∧
  (∀ b, st.currentBook = some b → bookIdsOK b) ∧
  (∀ s b, st.currentSection = some s → st.currentBook = some b →
    st.secAttached = true → sectionIdOK b.title s)

/-- Every section of the book holds at least one part. -/
def bookPartsOK (b : BookItem) : Prop :=
  ∀ s ∈ b.sections, s.parts ≠ []

/-- Every book of the category satisfies `bookPartsOK`. -/
def catPartsOK (c : CategoryItem) : Prop :=
  ∀ b ∈ c.children, bookPartsOK b

/-- Every category of the library satisfies `catPartsOK`. -/
def libPartsOK (L : List CategoryItem) : Prop :=
  ∀ c ∈ L, catPartsOK c

/-- Non-empty-section invariant carried through the parse: closed sections
hold a part, and the live section either already holds a closed part or its
initial part is still live. -/
def partsOK (st : ParserState) : Prop :=
  libPartsOK st.library ∧
  (∀ c, st.currentCat = some c → catPartsOK c) ∧
  (∀ b, st.currentBook = some b → bookPartsOK b) ∧
  (∀ s, st.currentSection = some s →
    s.parts ≠ [] ∨ (st.partAttached = true ∧ st.currentPart.isSome = true))

/-- Reachable states with no current section hold no attached part: a part
is only ever attached at creation time, when a section exists, and every
transition that clears the section also clears the part. -/
def partFlagOK (st : ParserState) : Prop :=
  st.currentSection = none → st.partAttached = false

/-- Simulation relation for the stray-delimiter claim: both states agree on
everything the rendered library can see, neither has a current section, and
neither has an attached part; the live part, the active language and the
part counter are allowed to differ, since with no current section none of
them can ever reach the rendered library. -/
def NoSectionSim (s1 s2 : ParserState) : Prop :=
  s1.library = s2.library ∧ s1.currentCat = s2.currentCat ∧
  s1.bookAttached = s2.bookAttached ∧ s1.currentBook = s2.currentBook ∧
  s1.currentSection = none ∧ s2.currentSection = none ∧
  s1.partAttached = false ∧ s2.partAttached = false

/-! Helper lemmas. -/

lemma hash_of_hash3 {t : String} (h : jsStartsWith t "###" = true) :
    jsStartsWith t "#" = true := by
  simp only [jsStartsWith, List.isPrefixOf_iff_prefix] at h ⊢
  exact List.IsPrefix.trans (by simp) h

lemma hash_of_hash2 {t : String} (h : jsStartsWith t "##" = true) :
    jsStartsWith t "#" = true := by
  simp only [jsStartsWith, List.isPrefixOf_iff_prefix] at h ⊢
  exact List.IsPrefix.trans (by simp) h

lemma ne_empty_of_hash {t : String} (h : jsStartsWith t "#" = true) :
    t ≠ "" := by
  intro he
  subst he
  exact absurd h (by decide)

lemma stepTrimmed_eq_dispatch (st : ParserState) (t : String) (ht : t ≠ "") :
    stepTrimmed st t = dispatchTrimmed st t := by
  unfold stepTrimmed
  rw [if_neg (fun hc => ht hc.1)]

lemma stepTrimmed_eq_doSection (st : ParserState) (t : String)
    (h : jsStartsWith t "###" = true) : stepTrimmed st t = doSection st t := by
  rw [stepTrimmed_eq_dispatch st t (ne_empty_of_hash (hash_of_hash3 h))]
  unfold dispatchTrimmed
  rw [if_pos h]

lemma stepTrimmed_eq_doDelim (st : ParserState) :
    stepTrimmed st "---" = doDelim st := by
  rw [stepTrimmed_eq_dispatch st "---" (by decide)]
  unfold dispatchTrimmed
  rw [if_neg (by decide), if_neg (by decide), if_neg (by decide), if_pos rfl]

lemma doContent_of_lang_none (st : ParserState) (t : String)
    (h : st.currentLang = none) : doContent st t = st := by
  unfold doContent
  rw [h]

lemma stepTrimmed_eq_doContent (st : ParserState) (t : String)
    (h1 : jsStartsWith t "#" = false) (h2 : t ≠ "---")
    (h3 : jsToUpper t ≠ "[EN]") (h4 : jsToUpper t ≠ "[COP]")
    (h5 : jsToUpper t ≠ "[AR]") (h6 : jsToUpper t ≠ "[TRAN-EN]")
    (h7 : jsToUpper t ≠ "[TRAN-AR]") :
    stepTrimmed st t = doContent st t := by
  have hs3 : ¬ jsStartsWith t "###" = true := fun hc => by
    rw [hash_of_hash3 hc] at h1
    exact Bool.noConfusion h1
  have hs2 : ¬ jsStartsWith t "##" = true := fun hc => by
    rw [hash_of_hash2 hc] at h1
    exact Bool.noConfusion h1
  have hs1 : ¬ jsStartsWith t "#" = true := fun hc => by
    rw [hc] at h1
    exact Bool.noConfusion h1
  have hd : dispatchTrimmed st t = doContent st t := by
    unfold dispatchTrimmed
    rw [if_neg hs3, if_neg hs2, if_neg hs1, if_neg h2, if_neg h3, if_neg h4,
      if_neg h5, if_neg h6, if_neg h7]
  unfold stepTrimmed
  by_cases hg : t = "" ∧ st.currentLang = none
  · rw [if_pos hg, doContent_of_lang_none st t hg.2]
  · rw [if_neg hg, hd]

lemma contentHas_cons (e : Language × List String)
    (c : List (Language × List String)) (lang : Language) :
    contentHas (e :: c) lang = (decide (e.1 = lang) || contentHas c lang) := by
  simp [contentHas]

lemma contentGetD_cons_pos {e : Language × List String}
    {c : List (Language × List String)} {lang : Language} (he : e.1 = lang) :
    contentGetD (e :: c) lang = e.2 := by
  simp [contentGetD, List.find?_cons_of_pos, he]

lemma contentGetD_cons_neg {e : Language × List String}
    {c : List (Language × List String)} {lang : Language} (he : ¬ e.1 = lang) :
    contentGetD (e :: c) lang = contentGetD c lang := by
  simp [contentGetD, List.find?_cons_of_neg, he]

lemma contentGetD_append {c : List (Language × List String)} {lang : Language}
    (hf : contentHas c lang = false) (d : List (Language × List String)) :
    contentGetD (c ++ d) lang = contentGetD d lang := by
  induction c with
  | nil => rfl
  | cons e c ih =>
    rw [contentHas_cons, Bool.or_eq_false_iff] at hf
    rw [List.cons_append, contentGetD_cons_neg (by simpa using hf.1)]
    exact ih hf.2

lemma contentGetD_of_has_false {c : List (Language × List String)}
    {lang : Language} (hf : contentHas c lang = false) :
    contentGetD c lang = [] := by
  have := contentGetD_append hf ([] : List (Language × List String))
  simpa using this

lemma contentGetD_ensure (c : List (Language × List String)) (lang : Language) :
    contentGetD (contentEnsure c lang) lang = contentGetD c lang := by
  unfold contentEnsure
  cases hh : contentHas c lang
  · rw [if_neg (by simp [hh]), contentGetD_append hh, contentGetD_of_has_false hh]
    simp [contentGetD]
  · rw [if_pos (by simp [hh])]

lemma contentHas_ensure (c : List (Language × List String)) (lang : Language) :
    contentHas (contentEnsure c lang) lang = true := by
  unfold contentEnsure
  cases hh : contentHas c lang
  · rw [if_neg (by simp [hh])]
    simp [contentHas]
  · rw [if_pos (by simp [hh])]
    exact hh

lemma contentGetD_push {c : List (Language × List String)} {lang : Language}
    (s : String) (h : contentHas c lang = true) :
    contentGetD (contentPush c lang s) lang = contentGetD c lang ++ [s] := by
  induction c with
  | nil => exact absurd h (by simp [contentHas])
  | cons e c ih =>
    by_cases he : e.1 = lang
    · rw [show contentPush (e :: c) lang s
          = (e.1, e.2 ++ [s]) :: contentPush c lang s by
        simp [contentPush, he]]
      rw [contentGetD_cons_pos he, contentGetD_cons_pos (by simpa using he)]
    · rw [show contentPush (e :: c) lang s = e :: contentPush c lang s by
        simp [contentPush, he]]
      rw [contentGetD_cons_neg he, contentGetD_cons_neg he]
      rw [contentHas_cons] at h
      exact ih (by simpa [he] using h)

lemma doSection_currentSection (st : ParserState) (t : String) :
    (doSection st t).currentSection =
      some ⟨"sec-" ++ slugify (bookTitleOrEmpty st) ++ "-" ++
              slugify (jsTrim (removeFirst "###" t)),
            jsTrim (removeFirst "###" t), []⟩ := by
  simp [doSection, createNewPart, flushPartIntoSection]

/-! Claim theorems. -/

/-- C1: parsing is deterministic — calling the parser twice on the same
input string yields structurally equal libraries, identifiers included.  In
this embedding `parseTextToLibrary` is a pure function (the current
identifier scheme derives every id from `slugify` of titles and from the
part counter, with no source of randomness), so two calls on equal inputs
agree. -/
theorem parse_deterministic (t u : String) (h : t = u) :
    parseTextToLibrary t = parseTextToLibrary u := by
  rw [h]

/-- Witness for C1 at a concrete input. -/
theorem parse_deterministic_witness :
    parseTextToLibrary "# Cat\n## Book\n### Sec\n[EN]\nHello" =
      parseTextToLibrary "# Cat\n## Book\n### Sec\n[EN]\nHello" :=
  parse_deterministic _ _ rfl

/-- C2: the parser is total — for every input string it returns a library
value.  Every guard in the source is an explicit null check or optional
chaining, so the embedding is a total function with no error channel. -/
theorem parse_total (t : String) :
    ∃ lib : List CategoryItem, parseTextToLibrary t = lib :=
  ⟨parseTextToLibrary t, rfl⟩

/-- C4: the minimal-tree example — one category "Cat", one book "Book", one
section "Sec", one part whose English paragraphs are exactly
["Hello", "World"]. -/
theorem minimal_tree_parse :
    parseTextToLibrary "# Cat\n## Book\n### Sec\n[EN]\nHello\nWorld" =
      [⟨"cat-cat", "Cat",
        [⟨"book-cat-book", "Book",
          [⟨"sec-book-sec", "Sec",
            [⟨"part-sec-book-sec-1", "prayer",
              [(Language.ENGLISH, ["Hello", "World"])]⟩]⟩]⟩]⟩] := by
  rfl

/-- C10: heading markers are matched on the trimmed line by prefix — every
line whose trimmed text starts with `###` (with any leading whitespace and
any number of further `#`) opens a Section, and only the first `###`
occurrence is removed from the title; concretely, the line `   #### Deep`
yields a Section titled `# Deep`. -/
theorem heading_match_by_prefix :
    (∀ (st : ParserState) (l : String),
      jsStartsWith (jsTrim l) "###" = true →
      (stepLine st l).currentSection =
        some ⟨"sec-" ++ slugify (bookTitleOrEmpty st) ++ "-" ++
                slugify (jsTrim (removeFirst "###" (jsTrim l))),
              jsTrim (removeFirst "###" (jsTrim l)), []⟩) ∧
    parseTextToLibrary "# C\n## B\n   #### Deep" =
      [⟨"cat-c", "C",
        [⟨"book-c-b", "B",
          [⟨"sec-b-deep", "# Deep",
            [⟨"part-sec-b-deep-1", "prayer", []⟩]⟩]⟩]⟩] := by
  constructor
  · intro st l h
    rw [stepLine, stepTrimmed_eq_doSection _ _ h, doSection_currentSection]
  · rfl

/-- Witness for C10: the general part applied to the initial state and the
line `#### Deep`. -/
theorem heading_match_by_prefix_witness :
    (stepLine initState "#### Deep").currentSection =
      some ⟨"sec-" ++ slugify (bookTitleOrEmpty initState) ++ "-" ++
              slugify (jsTrim (removeFirst "###" (jsTrim "#### Deep"))),
            jsTrim (removeFirst "###" (jsTrim "#### Deep")), []⟩ :=
  heading_match_by_prefix.1 initState "#### Deep" (by decide)

/-- C9: a blank line read while a language tag is active and a current part
exists creates that language's paragraph array without appending to it, so
the trailing newline of `"# C\n## B\n### S\n[EN]\n"` leaves the English key
present with zero paragraphs. -/
theorem blank_line_creates_language_key :
    (∀ (st : ParserState) (l : String) (lang : Language) (p : LiturgicalPart),
      st.currentLang = some lang → st.currentPart = some p → jsTrim l = "" →
      (stepLine st l).currentPart =
        some ⟨p.id, p.type, contentEnsure p.content lang⟩) ∧
    parseTextToLibrary "# C\n## B\n### S\n[EN]\n" =
      [⟨"cat-c", "C",
        [⟨"book-c-b", "B",
          [⟨"sec-b-s", "S",
            [⟨"part-sec-b-s-1", "prayer", [(Language.ENGLISH, [])]⟩]⟩]⟩]⟩] ∧
    contentHas [(Language.ENGLISH, ([] : List String))] Language.ENGLISH =
      true := by
  refine ⟨?_, by rfl, by decide⟩
  intro st l lang p hl hp ht
  rw [stepLine, ht, stepTrimmed_eq_doContent st "" (by decide) (by decide)
    (by decide) (by decide) (by decide) (by decide) (by decide)]
  simp [doContent, hl, hp]

/-- Witness for C9: the general part applied to a concrete state. -/
theorem blank_line_creates_language_key_witness :
    (stepLine { initState with
        currentLang := some Language.ENGLISH,
        currentPart := some ⟨"part-root-1", "prayer", []⟩ } "  ").currentPart =
      some ⟨"part-root-1", "prayer",
        contentEnsure ([] : List (Language × List String)) Language.ENGLISH⟩ :=
  blank_line_creates_language_key.1 _ "  " Language.ENGLISH
    ⟨"part-root-1", "prayer", []⟩ rfl rfl (by decide)

/-- C6: inside an active language block with a current part, a non-empty
trimmed line is appended as one paragraph and a blank line is dropped; the
block `Line1\n\nLine2` yields exactly ["Line1", "Line2"]. -/
theorem blank_line_suppression :
    (∀ (st : ParserState) (l : String) (lang : Language) (p : LiturgicalPart),
      st.currentLang = some lang → st.currentPart = some p →
      jsStartsWith (jsTrim l) "#" = false → jsTrim l ≠ "---" →
      jsToUpper (jsTrim l) ≠ "[EN]" → jsToUpper (jsTrim l) ≠ "[COP]" →
      jsToUpper (jsTrim l) ≠ "[AR]" → jsToUpper (jsTrim l) ≠ "[TRAN-EN]" →
      jsToUpper (jsTrim l) ≠ "[TRAN-AR]" →
      ∃ p', (stepLine st l).currentPart = some p' ∧
        contentGetD p'.content lang =
          (if jsTrim l = "" then contentGetD p.content lang
           else contentGetD p.content lang ++ [jsTrim l])) ∧
    parseTextToLibrary "# C\n## B\n### S\n[EN]\nLine1\n\nLine2" =
      [⟨"cat-c", "C",
        [⟨"book-c-b", "B",
          [⟨"sec-b-s", "S",
            [⟨"part-sec-b-s-1", "prayer",
              [(Language.ENGLISH, ["Line1", "Line2"])]⟩]⟩]⟩]⟩] := by
  constructor
  · intro st l lang p hl hp h1 h2 h3 h4 h5 h6 h7
    rw [stepLine, stepTrimmed_eq_doContent st (jsTrim l) h1 h2 h3 h4 h5 h6 h7]
    simp only [doContent, hl, hp]
    by_cases ht : jsTrim l = ""
    · exact ⟨_, rfl, by simp [ht, contentGetD_ensure]⟩
    · refine ⟨_, rfl, ?_⟩
      rw [if_neg ht, if_neg ht]
      rw [contentGetD_push _ (contentHas_ensure _ _), contentGetD_ensure]
  · rfl

/-- Witness for C6: the general part applied to a concrete state holding an
open English block with one paragraph, reading the line "Line2". -/
theorem blank_line_suppression_witness :
    ∃ p', (stepLine { initState with
        currentLang := some Language.ENGLISH,
        currentPart := some ⟨"part-root-1", "prayer",
          [(Language.ENGLISH, ["Line1"])]⟩ } "Line2").currentPart = some p' ∧
      contentGetD p'.content Language.ENGLISH =
        (if jsTrim "Line2" = "" then
          contentGetD [(Language.ENGLISH, ["Line1"])] Language.ENGLISH
         else
          contentGetD [(Language.ENGLISH, ["Line1"])] Language.ENGLISH ++
            [jsTrim "Line2"]) :=
  blank_line_suppression.1 _ "Line2" Language.ENGLISH
    ⟨"part-root-1", "prayer", [(Language.ENGLISH, ["Line1"])]⟩ rfl rfl
    (by decide) (by decide) (by decide) (by decide) (by decide) (by decide)
    (by decide)

/-- C3: a section heading with no current book creates an orphan node that
never reaches the library, and content with no heading at all is dropped:
parsing "[EN]\nHello" yields the empty library. -/
theorem orphan_nodes_discarded :
    (∀ (st : ParserState) (l : String), st.currentBook = none →
      jsStartsWith (jsTrim l) "###" = true →
      renderLibrary (stepLine st l) = renderLibrary st) ∧
    parseTextToLibrary "[EN]\nHello" = [] := by
  constructor
  · intro st l hb h
    rw [stepLine, stepTrimmed_eq_doSection _ _ h]
    cases hc : st.currentCat <;>
      simp [renderLibrary, flushBookIntoCat, flushSectionIntoBook, doSection,
        createNewPart, flushPartIntoSection, hb, hc]
  · rfl

/-- Witness for C3: the general part applied to the initial state (which has
no current book) and a section heading line. -/
theorem orphan_nodes_discarded_witness :
    renderLibrary (stepLine initState "### Sec") = renderLibrary initState :=
  orphan_nodes_discarded.1 initState "### Sec" rfl (by decide)

/-- C5 counterexample: the claim that identically titled sections under two
different books always receive different identifiers fails, because the
identifier namespaces by the slug of the book title and `slugify` is lossy:
the books titled "B!" and "B?" are different books, both slugify to "b", and
their sections titled "S" both receive the identifier "sec-b-s". -/
theorem section_id_collision :
    parseTextToLibrary "# C\n## B!\n### S\n## B?\n### S" =
      [⟨"cat-c", "C",
        [⟨"book-c-b", "B!",
          [⟨"sec-b-s", "S", [⟨"part-sec-b-s-1", "prayer", []⟩]⟩]⟩,
         ⟨"book-c-b", "B?",
          [⟨"sec-b-s", "S", [⟨"part-sec-b-s-1", "prayer", []⟩]⟩]⟩]⟩] ∧
    ¬ (∀ (c : CategoryItem) (b₁ b₂ : BookItem) (s₁ s₂ : LiturgySection),
        c ∈ parseTextToLibrary "# C\n## B!\n### S\n## B?\n### S" →
        b₁ ∈ c.children → b₂ ∈ c.children → b₁ ≠ b₂ →
        s₁ ∈ b₁.sections → s₂ ∈ b₂.sections → s₁.title = s₂.title →
        s₁.id ≠ s₂.id) := by
  refine ⟨by rfl, fun h => ?_⟩
  exact h ⟨"cat-c", "C",
      [⟨"book-c-b", "B!",
        [⟨"sec-b-s", "S", [⟨"part-sec-b-s-1", "prayer", []⟩]⟩]⟩,
       ⟨"book-c-b", "B?",
        [⟨"sec-b-s", "S", [⟨"part-sec-b-s-1", "prayer", []⟩]⟩]⟩]⟩
    ⟨"book-c-b", "B!", [⟨"sec-b-s", "S", [⟨"part-sec-b-s-1", "prayer", []⟩]⟩]⟩
    ⟨"book-c-b", "B?", [⟨"sec-b-s", "S", [⟨"part-sec-b-s-1", "prayer", []⟩]⟩]⟩
    ⟨"sec-b-s", "S", [⟨"part-sec-b-s-1", "prayer", []⟩]⟩
    ⟨"sec-b-s", "S", [⟨"part-sec-b-s-1", "prayer", []⟩]⟩
    (by rw [show parseTextToLibrary "# C\n## B!\n### S\n## B?\n### S" =
        [⟨"cat-c", "C",
          [⟨"book-c-b", "B!",
            [⟨"sec-b-s", "S", [⟨"part-sec-b-s-1", "prayer", []⟩]⟩]⟩,
           ⟨"book-c-b", "B?",
            [⟨"sec-b-s", "S", [⟨"part-sec-b-s-1", "prayer", []⟩]⟩]⟩]⟩]
        from rfl]; simp)
    (by simp) (by simp) (by decide) (by simp) (by simp) rfl rfl

lemma flushPartIntoSection_of_section_none {st : ParserState}
    (h : st.currentSection = none) : flushPartIntoSection st = none := by
  unfold flushPartIntoSection
  rw [h]

lemma flushSectionIntoBook_of_section_none {st : ParserState}
    (h : st.currentSection = none) :
    flushSectionIntoBook st = st.currentBook := by
  unfold flushSectionIntoBook
  cases hb : st.currentBook
  · rfl
  · rw [flushPartIntoSection_of_section_none h]
    simp

lemma flushBookIntoCat_eq_of_sim {s1 s2 : ParserState}
    (h : NoSectionSim s1 s2) : flushBookIntoCat s1 = flushBookIntoCat s2 := by
  obtain ⟨hlib, hcat, hba, hbook, hsec1, hsec2, hpa1, hpa2⟩ := h
  unfold flushBookIntoCat
  rw [hcat, hba, flushSectionIntoBook_of_section_none hsec1,
    flushSectionIntoBook_of_section_none hsec2, hbook]

lemma renderLibrary_eq_of_sim {s1 s2 : ParserState} (h : NoSectionSim s1 s2) :
    renderLibrary s1 = renderLibrary s2 := by
  unfold renderLibrary
  rw [h.1, flushBookIntoCat_eq_of_sim h]

lemma doSection_eq_of_sim {s1 s2 : ParserState} (h : NoSectionSim s1 s2)
    (t : String) : doSection s1 t = doSection s2 t := by
  obtain ⟨hlib, hcat, hba, hbook, hsec1, hsec2, hpa1, hpa2⟩ := h
  unfold doSection bookTitleOrEmpty
  rw [flushSectionIntoBook_of_section_none hsec1,
    flushSectionIntoBook_of_section_none hsec2, hbook]
  unfold createNewPart flushPartIntoSection
  simp only [hlib, hcat, hba, hbook]

lemma doBook_sim {s1 s2 : ParserState} (h : NoSectionSim s1 s2) (t : String) :
    NoSectionSim (doBook s1 t) (doBook s2 t) := by
  have hc := flushBookIntoCat_eq_of_sim h
  obtain ⟨hlib, hcat, hba, hbook, hsec1, hsec2, hpa1, hpa2⟩ := h
  unfold doBook catTitleOrEmpty
  exact ⟨by simp [hlib], by simp [hc], by simp [hc], by simp [hcat],
    by simp, by simp, by simp, by simp⟩

lemma doCat_sim {s1 s2 : ParserState} (h : NoSectionSim s1 s2) (t : String) :
    NoSectionSim (doCat s1 t) (doCat s2 t) := by
  have hr := renderLibrary_eq_of_sim h
  unfold doCat
  exact ⟨by simp [hr], by simp, by simp, by simp, by simp, by simp,
    by simp, by simp⟩

lemma doDelim_sim {s1 s2 : ParserState} (h : NoSectionSim s1 s2) :
    NoSectionSim (doDelim s1) (doDelim s2) := by
  obtain ⟨hlib, hcat, hba, hbook, hsec1, hsec2, hpa1, hpa2⟩ := h
  unfold doDelim createNewPart
  rw [flushPartIntoSection_of_section_none hsec1,
    flushPartIntoSection_of_section_none hsec2]
  exact ⟨by simp [hlib], by simp [hcat], by simp [hba], by simp [hbook],
    by simp, by simp, by simp, by simp⟩

lemma setLang_sim {s1 s2 : ParserState} (h : NoSectionSim s1 s2)
    (lang : Language) : NoSectionSim (setLang s1 lang) (setLang s2 lang) := by
  obtain ⟨hlib, hcat, hba, hbook, hsec1, hsec2, hpa1, hpa2⟩ := h
  unfold setLang
  exact ⟨by simp [hlib], by simp [hcat], by simp [hba], by simp [hbook],
    by simp [hsec1], by simp [hsec2], by simp [hpa1], by simp [hpa2]⟩

lemma doContent_fields (st : ParserState) (t : String) :
    (doContent st t).library = st.library ∧
    (doContent st t).currentCat = st.currentCat ∧
    (doContent st t).bookAttached = st.bookAttached ∧
    (doContent st t).currentBook = st.currentBook ∧
    (doContent st t).currentSection = st.currentSection ∧
    (doContent st t).secAttached = st.secAttached ∧
    (doContent st t).partAttached = st.partAttached := by
  unfold doContent
  cases hl : st.currentLang <;> cases hp : st.currentPart <;> simp

lemma doContent_sim {s1 s2 : ParserState} (h : NoSectionSim s1 s2)
    (t : String) : NoSectionSim (doContent s1 t) (doContent s2 t) := by
  have f1 := doContent_fields s1 t
  have f2 := doContent_fields s2 t
  obtain ⟨hlib, hcat, hba, hbook, hsec1, hsec2, hpa1, hpa2⟩ := h
  exact ⟨by rw [f1.1, f2.1, hlib],
    by rw [f1.2.1, f2.2.1, hcat],
    by rw [f1.2.2.1, f2.2.2.1, hba],
    by rw [f1.2.2.2.1, f2.2.2.2.1, hbook],
    by rw [f1.2.2.2.2.1, hsec1],
    by rw [f2.2.2.2.2.1, hsec2],
    by rw [f1.2.2.2.2.2.2, hpa1],
    by rw [f2.2.2.2.2.2.2, hpa2]⟩

lemma stepTrimmed_empty_preserves (s : ParserState) :
    (stepTrimmed s "").library = s.library ∧
    (stepTrimmed s "").currentCat = s.currentCat ∧
    (stepTrimmed s "").bookAttached = s.bookAttached ∧
    (stepTrimmed s "").currentBook = s.currentBook ∧
    (stepTrimmed s "").currentSection = s.currentSection ∧
    (stepTrimmed s "").secAttached = s.secAttached ∧
    (stepTrimmed s "").partAttached = s.partAttached := by
  have hd : dispatchTrimmed s "" = doContent s "" := by
    unfold dispatchTrimmed
    rw [if_neg (by decide), if_neg (by decide), if_neg (by decide),
      if_neg (by decide), if_neg (by decide), if_neg (by decide),
      if_neg (by decide), if_neg (by decide), if_neg (by decide)]
  have hc : stepTrimmed s "" = s ∨ stepTrimmed s "" = doContent s "" := by
    unfold stepTrimmed
    by_cases hg : ("" : String) = "" ∧ s.currentLang = none
    · rw [if_pos hg]
      exact Or.inl rfl
    · rw [if_neg hg, hd]
      exact Or.inr rfl
  rcases hc with hc | hc
  · rw [hc]
    exact ⟨rfl, rfl, rfl, rfl, rfl, rfl, rfl⟩
  · rw [hc]
    have f := doContent_fields s ""
    exact ⟨f.1, f.2.1, f.2.2.1, f.2.2.2.1, f.2.2.2.2.1, f.2.2.2.2.2.1,
      f.2.2.2.2.2.2⟩

set_option maxHeartbeats 1000000 in
lemma noSectionSim_step {s1 s2 : ParserState} (h : NoSectionSim s1 s2)
    (t : String) :
    stepTrimmed s1 t = stepTrimmed s2 t ∨
    NoSectionSim (stepTrimmed s1 t) (stepTrimmed s2 t) := by
  by_cases ht : t = ""
  · subst ht
    right
    have e1 := stepTrimmed_empty_preserves s1
    have e2 := stepTrimmed_empty_preserves s2
    obtain ⟨hlib, hcat, hba, hbook, hsec1, hsec2, hpa1, hpa2⟩ := h
    exact ⟨by rw [e1.1, e2.1, hlib],
      by rw [e1.2.1, e2.2.1, hcat],
      by rw [e1.2.2.1, e2.2.2.1, hba],
      by rw [e1.2.2.2.1, e2.2.2.2.1, hbook],
      by rw [e1.2.2.2.2.1]; exact hsec1,
      by rw [e2.2.2.2.2.1]; exact hsec2,
      by rw [e1.2.2.2.2.2.2]; exact hpa1,
      by rw [e2.2.2.2.2.2.2]; exact hpa2⟩
  · rw [stepTrimmed_eq_dispatch s1 t ht, stepTrimmed_eq_dispatch s2 t ht]
    unfold dispatchTrimmed
    split_ifs
    · exact Or.inl (doSection_eq_of_sim h t)
    · exact Or.inr (doBook_sim h t)
    · exact Or.inr (doCat_sim h t)
    · exact Or.inr (doDelim_sim h)
    · exact Or.inr (setLang_sim h _)
    · exact Or.inr (setLang_sim h _)
    · exact Or.inr (setLang_sim h _)
    · exact Or.inr (setLang_sim h _)
    · exact Or.inr (setLang_sim h _)
    · exact Or.inr (doContent_sim h t)

lemma partFlagOK_doContent (st : ParserState) (t : String)
    (h : partFlagOK st) : partFlagOK (doContent st t) := by
  intro hs
  have f := doContent_fields st t
  rw [f.2.2.2.2.1] at hs
  rw [f.2.2.2.2.2.2]
  exact h hs

set_option maxHeartbeats 1000000 in
lemma partFlagOK_step (st : ParserState) (t : String) (h : partFlagOK st) :
    partFlagOK (stepTrimmed st t) := by
  by_cases ht : t = ""
  · subst ht
    intro hs
    have e := stepTrimmed_empty_preserves st
    rw [e.2.2.2.2.1] at hs
    rw [e.2.2.2.2.2.2]
    exact h hs
  · rw [stepTrimmed_eq_dispatch st t ht]
    unfold dispatchTrimmed
    split_ifs
    · intro hs
      rw [doSection_currentSection] at hs
      exact Option.noConfusion hs
    · intro _
      rfl
    · intro _
      rfl
    · intro hs
      have hs' : flushPartIntoSection st = none := hs
      show (flushPartIntoSection st).isSome = false
      rw [hs']
      rfl
    · intro hs
      exact h hs
    · intro hs
      exact h hs
    · intro hs
      exact h hs
    · intro hs
      exact h hs
    · intro hs
      exact h hs
    · exact partFlagOK_doContent st t h

lemma partFlagOK_foldl (ls : List String) (st : ParserState)
    (h : partFlagOK st) : partFlagOK (List.foldl stepLine st ls) := by
  induction ls generalizing st with
  | nil => exact h
  | cons l ls ih =>
    rw [List.foldl_cons]
    exact ih _ (partFlagOK_step st (jsTrim l) h)

lemma noSectionSim_foldl (ls : List String) {s1 s2 : ParserState}
    (h : s1 = s2 ∨ NoSectionSim s1 s2) :
    List.foldl stepLine s1 ls = List.foldl stepLine s2 ls ∨
    NoSectionSim (List.foldl stepLine s1 ls) (List.foldl stepLine s2 ls) := by
  induction ls generalizing s1 s2 with
  | nil => simpa using h
  | cons l ls ih =>
    rw [List.foldl_cons, List.foldl_cons]
    rcases h with rfl | hsim
    · exact Or.inl rfl
    · exact ih (noSectionSim_step hsim (jsTrim l))

/-- C7: a `---` delimiter line read while there is no current section is a
no-op on the resulting library — the parser creates only a dangling part
that never reaches the tree, and the library of the whole parse equals that
of the same line sequence without the delimiter (and the parser does not
crash: the step is total). -/
theorem delimiter_without_section_noop (pre post : List String) (l : String)
    (hl : jsTrim l = "---")
    (hsec : (runLines pre).currentSection = none) :
    parseLines (pre ++ l :: post) = parseLines (pre ++ post) := by
  have hflag : partFlagOK (runLines pre) :=
    partFlagOK_foldl pre initState (fun _ => rfl)
  have hpa : (runLines pre).partAttached = false := hflag hsec
  have hsim : NoSectionSim (stepLine (runLines pre) l) (runLines pre) := by
    rw [stepLine, hl, stepTrimmed_eq_doDelim]
    refine ⟨rfl, rfl, rfl, rfl, ?_, hsec, ?_, hpa⟩
    · show flushPartIntoSection (runLines pre) = none
      exact flushPartIntoSection_of_section_none hsec
    · show (flushPartIntoSection (runLines pre)).isSome = false
      rw [flushPartIntoSection_of_section_none hsec]
      rfl
  unfold parseLines runLines
  rw [List.foldl_append, List.foldl_append, List.foldl_cons]
  rcases noSectionSim_foldl post (Or.inr hsim) with he | hs
  · rw [show stepLine (List.foldl stepLine initState pre) l
        = stepLine (runLines pre) l from rfl, he]
    rfl
  · exact renderLibrary_eq_of_sim hs

/-- Witness for C7: dropping a stray `---` between a category line and a
book line leaves the parse unchanged. -/
theorem delimiter_without_section_noop_witness :
    parseLines (["# C"] ++ "---" :: ["## B"]) =
      parseLines (["# C"] ++ ["## B"]) :=
  delimiter_without_section_noop ["# C"] ["## B"] "---" (by decide) (by rfl)

lemma flushPartIntoSection_id_title {st : ParserState} {s : LiturgySection}
    (hs : st.currentSection = some s) :
    ∃ s', flushPartIntoSection st = some s' ∧ s'.id = s.id ∧
      s'.title = s.title := by
  by_cases hpa : st.partAttached = true
  · cases hp : st.currentPart with
    | none => exact ⟨s, by simp [flushPartIntoSection, hs, hpa, hp], rfl, rfl⟩
    | some p =>
      exact ⟨{ s with parts := s.parts ++ [p] },
        by simp [flushPartIntoSection, hs, hpa, hp], rfl, rfl⟩
  · exact ⟨s, by simp [flushPartIntoSection, hs, hpa], rfl, rfl⟩

lemma flushPartIntoSection_inv {st : ParserState} {s' : LiturgySection}
    (hf : flushPartIntoSection st = some s') :
    ∃ s, st.currentSection = some s ∧ s'.id = s.id ∧ s'.title = s.title := by
  cases hs : st.currentSection with
  | none =>
    rw [flushPartIntoSection_of_section_none hs] at hf
    exact Option.noConfusion hf
  | some s =>
    obtain ⟨s'', hf2, hid, htitle⟩ := flushPartIntoSection_id_title hs
    rw [hf2] at hf
    injection hf with h
    subst h
    exact ⟨s, rfl, hid, htitle⟩

lemma flushSectionIntoBook_of_book_none {st : ParserState}
    (hb : st.currentBook = none) : flushSectionIntoBook st = none := by
  unfold flushSectionIntoBook
  rw [hb]

lemma flushSectionIntoBook_ids {st : ParserState} {b : BookItem}
    (hb : st.currentBook = some b) (hok : bookIdsOK b)
    (hlive : ∀ s, st.currentSection = some s → st.secAttached = true →
      sectionIdOK b.title s) :
    ∃ b', flushSectionIntoBook st = some b' ∧ b'.title = b.title ∧
      bookIdsOK b' := by
  by_cases hsa : st.secAttached = true
  · cases hs : st.currentSection with
    | none =>
      refine ⟨b, ?_, rfl, hok⟩
      simp [flushSectionIntoBook, hb, hsa,
        flushPartIntoSection_of_section_none hs]
    | some s0 =>
      obtain ⟨s', hf, hid, htitle⟩ := flushPartIntoSection_id_title hs
      refine ⟨{ b with sections := b.sections ++ [s'] }, ?_, rfl, ?_⟩
      · simp [flushSectionIntoBook, hb, hsa, hf]
      · intro s hmem
        rcases List.mem_append.mp hmem with hm | hm
        · exact hok s hm
        · have hss : s = s' := by simpa using hm
          subst hss
          have h0 := hlive _ hs hsa
          unfold sectionIdOK at h0 ⊢
          rw [hid, htitle]
          exact h0
  · refine ⟨b, ?_, rfl, hok⟩
    simp [flushSectionIntoBook, hb, hsa]

lemma flushBookIntoCat_of_cat_none {st : ParserState}
    (hc : st.currentCat = none) : flushBookIntoCat st = none := by
  unfold flushBookIntoCat
  rw [hc]

lemma flushBookIntoCat_ids {st : ParserState} {c : CategoryItem}
    (hc : st.currentCat = some c) (hok : catIdsOK c)
    (hbook : ∀ b, st.currentBook = some b → bookIdsOK b)
    (hlive : ∀ s b, st.currentSection = some s → st.currentBook = some b →
      st.secAttached = true → sectionIdOK b.title s) :
    ∃ c', flushBookIntoCat st = some c' ∧ catIdsOK c' := by
  by_cases hba : st.bookAttached = true
  · cases hb : st.currentBook with
    | none =>
      refine ⟨c, ?_, hok⟩
      simp [flushBookIntoCat, hc, hba, flushSectionIntoBook_of_book_none hb]
    | some b0 =>
      obtain ⟨b', hf, htitle, hbok⟩ := flushSectionIntoBook_ids hb
        (hbook _ hb) (fun s hs hsa => hlive s _ hs hb hsa)
      refine ⟨{ c with children := c.children ++ [b'] }, ?_, ?_⟩
      · simp [flushBookIntoCat, hc, hba, hf]
      · intro b hmem
        rcases List.mem_append.mp hmem with hm | hm
        · exact hok b hm
        · have hbb : b = b' := by simpa using hm
          subst hbb
          exact hbok
  · refine ⟨c, ?_, hok⟩
    simp [flushBookIntoCat, hc, hba]

lemma libIdsOK_render {st : ParserState} (h : idsOK st) :
    libIdsOK (renderLibrary st) := by
  obtain ⟨h1, h2, h3, h4⟩ := h
  unfold renderLibrary
  intro c hc
  rcases List.mem_append.mp hc with hm | hm
  · exact h1 c hm
  · cases hcc : st.currentCat
    · rw [flushBookIntoCat_of_cat_none hcc] at hm
      simp at hm
    · obtain ⟨c', hf, hcok⟩ := flushBookIntoCat_ids hcc (h2 _ hcc) h3 h4
      rw [hf] at hm
      have hcc' : c = c' := by simpa using hm
      subst hcc'
      exact hcok

lemma doSection_fields (st : ParserState) (t : String) :
    (doSection st t).library = st.library ∧
    (doSection st t).currentCat = st.currentCat ∧
    (doSection st t).currentBook = flushSectionIntoBook st ∧
    (doSection st t).secAttached = (flushSectionIntoBook st).isSome :=
  ⟨rfl, rfl, rfl, rfl⟩

lemma doBook_fields (st : ParserState) (t : String) :
    (doBook st t).library = st.library ∧
    (doBook st t).currentCat = flushBookIntoCat st ∧
    (doBook st t).currentBook =
      some ⟨"book-" ++ slugify (catTitleOrEmpty st) ++ "-" ++
              slugify (jsTrim (removeFirst "##" t)),
            jsTrim (removeFirst "##" t), []⟩ ∧
    (doBook st t).currentSection = none :=
  ⟨rfl, rfl, rfl, rfl⟩

lemma doCat_fields (st : ParserState) (t : String) :
    (doCat st t).library = renderLibrary st ∧
    (doCat st t).currentCat =
      some ⟨"cat-" ++ slugify (jsTrim (removeFirst "#" t)),
            jsTrim (removeFirst "#" t), []⟩ ∧
    (doCat st t).currentBook = none ∧
    (doCat st t).currentSection = none :=
  ⟨rfl, rfl, rfl, rfl⟩

lemma doDelim_fields (st : ParserState) :
    (doDelim st).library = st.library ∧
    (doDelim st).currentCat = st.currentCat ∧
    (doDelim st).currentBook = st.currentBook ∧
    (doDelim st).secAttached = st.secAttached ∧
    (doDelim st).currentSection = flushPartIntoSection st :=
  ⟨rfl, rfl, rfl, rfl, rfl⟩

lemma idsOK_doSection (st : ParserState) (t : String) (h : idsOK st) :
    idsOK (doSection st t) := by
  obtain ⟨h1, h2, h3, h4⟩ := h
  have f := doSection_fields st t
  refine ⟨?_, ?_, ?_, ?_⟩
  · rw [f.1]
    exact h1
  · intro c hc
    rw [f.2.1] at hc
    exact h2 c hc
  · intro b' hb'
    rw [f.2.2.1] at hb'
    cases hb : st.currentBook
    · rw [flushSectionIntoBook_of_book_none hb] at hb'
      exact Option.noConfusion hb'
    · obtain ⟨b'', hf, htitle, hbok⟩ := flushSectionIntoBook_ids hb
        (h3 _ hb) (fun s hs hsa => h4 s _ hs hb hsa)
      rw [hf] at hb'
      injection hb' with hbb
      subst hbb
      exact hbok
  · intro s b' hs hb' hsa
    rw [doSection_currentSection] at hs
    rw [f.2.2.1] at hb'
    injection hs with hs
    subst hs
    cases hb : st.currentBook
    · rw [flushSectionIntoBook_of_book_none hb] at hb'
      exact Option.noConfusion hb'
    · obtain ⟨b'', hf, htitle, hbok⟩ := flushSectionIntoBook_ids hb
        (h3 _ hb) (fun s hs hsa => h4 s _ hs hb hsa)
      rw [hf] at hb'
      injection hb' with hbb
      subst hbb
      unfold sectionIdOK
      rw [htitle]
      unfold bookTitleOrEmpty
      rw [hb]

lemma idsOK_doBook (st : ParserState) (t : String) (h : idsOK st) :
    idsOK (doBook st t) := by
  obtain ⟨h1, h2, h3, h4⟩ := h
  have f := doBook_fields st t
  refine ⟨?_, ?_, ?_, ?_⟩
  · rw [f.1]
    exact h1
  · intro c hc
    rw [f.2.1] at hc
    cases hcc : st.currentCat
    · rw [flushBookIntoCat_of_cat_none hcc] at hc
      exact Option.noConfusion hc
    · obtain ⟨c', hf, hcok⟩ := flushBookIntoCat_ids hcc (h2 _ hcc) h3 h4
      rw [hf] at hc
      injection hc with hcc'
      subst hcc'
      exact hcok
  · intro b hb
    rw [f.2.2.1] at hb
    injection hb with hb
    subst hb
    intro s hs
    exact absurd hs (List.not_mem_nil s)
  · intro s b hs hb hsa
    rw [f.2.2.2] at hs
    exact Option.noConfusion hs

lemma idsOK_doCat (st : ParserState) (t : String) (h : idsOK st) :
    idsOK (doCat st t) := by
  have f := doCat_fields st t
  refine ⟨?_, ?_, ?_, ?_⟩
  · rw [f.1]
    exact libIdsOK_render h
  · intro c hc
    rw [f.2.1] at hc
    injection hc with hc
    subst hc
    intro b hb
    exact absurd hb (List.not_mem_nil b)
  · intro b hb
    rw [f.2.2.1] at hb
    exact Option.noConfusion hb
  · intro s b hs hb hsa
    rw [f.2.2.2] at hs
    exact Option.noConfusion hs

lemma idsOK_doDelim (st : ParserState) (h : idsOK st) :
    idsOK (doDelim st) := by
  obtain ⟨h1, h2, h3, h4⟩ := h
  have f := doDelim_fields st
  refine ⟨?_, ?_, ?_, ?_⟩
  · rw [f.1]
    exact h1
  · intro c hc
    rw [f.2.1] at hc
    exact h2 c hc
  · intro b hb
    rw [f.2.2.1] at hb
    exact h3 b hb
  · intro s' b hs' hb hsa
    rw [f.2.2.2.2] at hs'
    rw [f.2.2.1] at hb
    rw [f.2.2.2.1] at hsa
    obtain ⟨s, hs, hid, htitle⟩ := flushPartIntoSection_inv hs'
    have h0 := h4 s b hs hb hsa
    unfold sectionIdOK at h0 ⊢
    rw [hid, htitle]
    exact h0

lemma idsOK_setLang (st : ParserState) (lang : Language) (h : idsOK st) :
    idsOK (setLang st lang) :=
  h

lemma idsOK_doContent (st : ParserState) (t : String) (h : idsOK st) :
    idsOK (doContent st t) := by
  obtain ⟨h1, h2, h3, h4⟩ := h
  have f := doContent_fields st t
  refine ⟨?_, ?_, ?_, ?_⟩
  · rw [f.1]
    exact h1
  · intro c hc
    rw [f.2.1] at hc
    exact h2 c hc
  · intro b hb
    rw [f.2.2.2.1] at hb
    exact h3 b hb
  · intro s b hs hb hsa
    rw [f.2.2.2.2.1] at hs
    rw [f.2.2.2.1] at hb
    rw [f.2.2.2.2.2.1] at hsa
    exact h4 s b hs hb hsa

set_option maxHeartbeats 1000000 in
lemma idsOK_step (st : ParserState) (t : String) (h : idsOK st) :
    idsOK (stepTrimmed st t) := by
  by_cases ht : t = ""
  · subst ht
    obtain ⟨h1, h2, h3, h4⟩ := h
    have e := stepTrimmed_empty_preserves st
    refine ⟨?_, ?_, ?_, ?_⟩
    · rw [e.1]
      exact h1
    · intro c hc
      rw [e.2.1] at hc
      exact h2 c hc
    · intro b hb
      rw [e.2.2.2.1] at hb
      exact h3 b hb
    · intro s b hs hb hsa
      rw [e.2.2.2.2.1] at hs
      rw [e.2.2.2.1] at hb
      rw [e.2.2.2.2.2.1] at hsa
      exact h4 s b hs hb hsa
  · rw [stepTrimmed_eq_dispatch st t ht]
    unfold dispatchTrimmed
    split_ifs
    · exact idsOK_doSection st t h
    · exact idsOK_doBook st t h
    · exact idsOK_doCat st t h
    · exact idsOK_doDelim st h
    · exact idsOK_setLang st _ h
    · exact idsOK_setLang st _ h
    · exact idsOK_setLang st _ h
    · exact idsOK_setLang st _ h
    · exact idsOK_setLang st _ h
    · exact idsOK_doContent st t h

lemma idsOK_initState : idsOK initState :=
  ⟨fun c hc => absurd hc (List.not_mem_nil c),
   fun _ hc => Option.noConfusion hc,
   fun _ hb => Option.noConfusion hb,
   fun _ _ hs _ _ => Option.noConfusion hs⟩

lemma idsOK_foldl (ls : List String) (st : ParserState) (h : idsOK st) :
    idsOK (List.foldl stepLine st ls) := by
  induction ls generalizing st with
  | nil => exact h
  | cons l ls ih =>
    rw [List.foldl_cons]
    exact ih _ (idsOK_step st (jsTrim l) h)

lemma parse_section_id (text : String) (c : CategoryItem) (b : BookItem)
    (s : LiturgySection) (hc : c ∈ parseTextToLibrary text)
    (hb : b ∈ c.children) (hs : s ∈ b.sections) :
    s.id = "sec-" ++ slugify b.title ++ "-" ++ slugify s.title := by
  have hlib : libIdsOK (parseTextToLibrary text) := by
    unfold parseTextToLibrary
    split_ifs
    · intro c hc
      exact absurd hc (List.not_mem_nil c)
    · exact libIdsOK_render (idsOK_foldl _ _ idsOK_initState)
  exact hlib c hc b hb s hs

lemma string_append_cancel_right {x y s : String} (h : x ++ s = y ++ s) :
    x = y := by
  rcases x with ⟨xd⟩
  rcases y with ⟨yd⟩
  rcases s with ⟨sd⟩
  have hd : xd ++ sd = yd ++ sd := congrArg String.data h
  exact congrArg String.mk (List.append_cancel_right hd)

lemma string_append_cancel_left {p x y : String} (h : p ++ x = p ++ y) :
    x = y := by
  rcases p with ⟨pd⟩
  rcases x with ⟨xd⟩
  rcases y with ⟨yd⟩
  have hd : pd ++ xd = pd ++ yd := congrArg String.data h
  exact congrArg String.mk (List.append_cancel_left hd)

/-- C5 amended: two sections with identical titles under two different
books receive different identifiers whenever the books' titles have
different slugs, because every section identifier in a parse output is
`sec-` + slug of the owning book's title + `-` + slug of the section's own
title. -/
theorem section_id_namespaced (text : String) (c₁ c₂ : CategoryItem)
    (b₁ b₂ : BookItem) (s₁ s₂ : LiturgySection)
    (hc₁ : c₁ ∈ parseTextToLibrary text) (hc₂ : c₂ ∈ parseTextToLibrary text)
    (hb₁ : b₁ ∈ c₁.children) (hb₂ : b₂ ∈ c₂.children)
    (hs₁ : s₁ ∈ b₁.sections) (hs₂ : s₂ ∈ b₂.sections)
    (htitle : s₁.title = s₂.title)
    (hslug : slugify b₁.title ≠ slugify b₂.title) :
    s₁.id ≠ s₂.id := by
  intro heq
  rw [parse_section_id text c₁ b₁ s₁ hc₁ hb₁ hs₁,
    parse_section_id text c₂ b₂ s₂ hc₂ hb₂ hs₂, htitle] at heq
  have h1 : "sec-" ++ slugify b₁.title ++ "-" = "sec-" ++ slugify b₂.title ++ "-" :=
    string_append_cancel_right heq
  have h2 : "sec-" ++ slugify b₁.title = "sec-" ++ slugify b₂.title :=
    string_append_cancel_right h1
  exact hslug (string_append_cancel_left h2)

/-- Witness for C5 amended: in the parse of a document with books "A" and
"B" each holding a section "S", the section identifiers differ. -/
theorem section_id_namespaced_witness :
    (⟨"sec-a-s", "S", [⟨"part-sec-a-s-1", "prayer", []⟩]⟩ :
        LiturgySection).id ≠
      (⟨"sec-b-s", "S", [⟨"part-sec-b-s-1", "prayer", []⟩]⟩ :
        LiturgySection).id :=
  section_id_namespaced "# C\n## A\n### S\n## B\n### S"
    ⟨"cat-c", "C",
      [⟨"book-c-a", "A",
        [⟨"sec-a-s", "S", [⟨"part-sec-a-s-1", "prayer", []⟩]⟩]⟩,
       ⟨"book-c-b", "B",
        [⟨"sec-b-s", "S", [⟨"part-sec-b-s-1", "prayer", []⟩]⟩]⟩]⟩
    ⟨"cat-c", "C",
      [⟨"book-c-a", "A",
        [⟨"sec-a-s", "S", [⟨"part-sec-a-s-1", "prayer", []⟩]⟩]⟩,
       ⟨"book-c-b", "B",
        [⟨"sec-b-s", "S", [⟨"part-sec-b-s-1", "prayer", []⟩]⟩]⟩]⟩
    ⟨"book-c-a", "A", [⟨"sec-a-s", "S", [⟨"part-sec-a-s-1", "prayer", []⟩]⟩]⟩
    ⟨"book-c-b", "B", [⟨"sec-b-s", "S", [⟨"part-sec-b-s-1", "prayer", []⟩]⟩]⟩
    ⟨"sec-a-s", "S", [⟨"part-sec-a-s-1", "prayer", []⟩]⟩
    ⟨"sec-b-s", "S", [⟨"part-sec-b-s-1", "prayer", []⟩]⟩
    (by rw [show parseTextToLibrary "# C\n## A\n### S\n## B\n### S" =
        [⟨"cat-c", "C",
          [⟨"book-c-a", "A",
            [⟨"sec-a-s", "S", [⟨"part-sec-a-s-1", "prayer", []⟩]⟩]⟩,
           ⟨"book-c-b", "B",
            [⟨"sec-b-s", "S", [⟨"part-sec-b-s-1", "prayer", []⟩]⟩]⟩]⟩]
        from rfl]; simp)
    (by rw [show parseTextToLibrary "# C\n## A\n### S\n## B\n### S" =
        [⟨"cat-c", "C",
          [⟨"book-c-a", "A",
            [⟨"sec-a-s", "S", [⟨"part-sec-a-s-1", "prayer", []⟩]⟩]⟩,
           ⟨"book-c-b", "B",
            [⟨"sec-b-s", "S", [⟨"part-sec-b-s-1", "prayer", []⟩]⟩]⟩]⟩]
        from rfl]; simp)
    (by simp) (by simp) (by simp) (by simp) rfl (by decide)

lemma flushPartIntoSection_parts {st : ParserState} {s : LiturgySection}
    (hs : st.currentSection = some s)
    (hgood : s.parts ≠ [] ∨
      (st.partAttached = true ∧ st.currentPart.isSome = true)) :
    ∃ s', flushPartIntoSection st = some s' ∧ s'.parts ≠ [] := by
  by_cases hpa : st.partAttached = true
  · cases hp : st.currentPart with
    | none =>
      refine ⟨s, by simp [flushPartIntoSection, hs, hpa, hp], ?_⟩
      rcases hgood with h | ⟨_, hsome⟩
      · exact h
      · rw [hp] at hsome
        exact absurd hsome (by simp)
    | some p =>
      exact ⟨{ s with parts := s.parts ++ [p] },
        by simp [flushPartIntoSection, hs, hpa, hp], by simp⟩
  · refine ⟨s, by simp [flushPartIntoSection, hs, hpa], ?_⟩
    rcases hgood with h | ⟨hp, _⟩
    · exact h
    · exact absurd hp hpa

lemma flushSectionIntoBook_parts {st : ParserState} {b : BookItem}
    (hb : st.currentBook = some b) (hok : bookPartsOK b)
    (hlive : ∀ s, st.currentSection = some s → s.parts ≠ [] ∨
      (st.partAttached = true ∧ st.currentPart.isSome = true)) :
    ∃ b', flushSectionIntoBook st = some b' ∧ bookPartsOK b' := by
  by_cases hsa : st.secAttached = true
  · cases hs : st.currentSection with
    | none =>
      refine ⟨b, ?_, hok⟩
      simp [flushSectionIntoBook, hb, hsa,
        flushPartIntoSection_of_section_none hs]
    | some s0 =>
      obtain ⟨s', hf, hne⟩ := flushPartIntoSection_parts hs (hlive _ hs)
      refine ⟨{ b with sections := b.sections ++ [s'] }, ?_, ?_⟩
      · simp [flushSectionIntoBook, hb, hsa, hf]
      · intro s hmem
        rcases List.mem_append.mp hmem with hm | hm
        · exact hok s hm
        · have hss : s = s' := by simpa using hm
          subst hss
          exact hne
  · refine ⟨b, ?_, hok⟩
    simp [flushSectionIntoBook, hb, hsa]

lemma flushBookIntoCat_parts {st : ParserState} {c : CategoryItem}
    (hc : st.currentCat = some c) (hok : catPartsOK c)
    (hbook : ∀ b, st.currentBook = some b → bookPartsOK b)
    (hlive : ∀ s, st.currentSection = some s → s.parts ≠ [] ∨
      (st.partAttached = true ∧ st.currentPart.isSome = true)) :
    ∃ c', flushBookIntoCat st = some c' ∧ catPartsOK c' := by
  by_cases hba : st.bookAttached = true
  · cases hb : st.currentBook with
    | none =>
      refine ⟨c, ?_, hok⟩
      simp [flushBookIntoCat, hc, hba, flushSectionIntoBook_of_book_none hb]
    | some b0 =>
      obtain ⟨b', hf, hbok⟩ := flushSectionIntoBook_parts hb (hbook _ hb) hlive
      refine ⟨{ c with children := c.children ++ [b'] }, ?_, ?_⟩
      · simp [flushBookIntoCat, hc, hba, hf]
      · intro b hmem
        rcases List.mem_append.mp hmem with hm | hm
        · exact hok b hm
        · have hbb : b = b' := by simpa using hm
          subst hbb
          exact hbok
  · refine ⟨c, ?_, hok⟩
    simp [flushBookIntoCat, hc, hba]

lemma libPartsOK_render {st : ParserState} (h : partsOK st) :
    libPartsOK (renderLibrary st) := by
  obtain ⟨h1, h2, h3, h4⟩ := h
  unfold renderLibrary
  intro c hc
  rcases List.mem_append.mp hc with hm | hm
  · exact h1 c hm
  · cases hcc : st.currentCat
    · rw [flushBookIntoCat_of_cat_none hcc] at hm
      simp at hm
    · obtain ⟨c', hf, hcok⟩ := flushBookIntoCat_parts hcc (h2 _ hcc) h3 h4
      rw [hf] at hm
      have hcc' : c = c' := by simpa using hm
      subst hcc'
      exact hcok

lemma partsOK_doSection (st : ParserState) (t : String) (h : partsOK st) :
    partsOK (doSection st t) := by
  obtain ⟨h1, h2, h3, h4⟩ := h
  have f := doSection_fields st t
  refine ⟨?_, ?_, ?_, ?_⟩
  · rw [f.1]
    exact h1
  · intro c hc
    rw [f.2.1] at hc
    exact h2 c hc
  · intro b' hb'
    rw [f.2.2.1] at hb'
    cases hb : st.currentBook
    · rw [flushSectionIntoBook_of_book_none hb] at hb'
      exact Option.noConfusion hb'
    · obtain ⟨b'', hf, hbok⟩ := flushSectionIntoBook_parts hb (h3 _ hb) h4
      rw [hf] at hb'
      injection hb' with hbb
      subst hbb
      exact hbok
  · intro s hs
    right
    exact ⟨rfl, rfl⟩

lemma partsOK_doBook (st : ParserState) (t : String) (h : partsOK st) :
    partsOK (doBook st t) := by
  obtain ⟨h1, h2, h3, h4⟩ := h
  have f := doBook_fields st t
  refine ⟨?_, ?_, ?_, ?_⟩
  · rw [f.1]
    exact h1
  · intro c hc
    rw [f.2.1] at hc
    cases hcc : st.currentCat
    · rw [flushBookIntoCat_of_cat_none hcc] at hc
      exact Option.noConfusion hc
    · obtain ⟨c', hf, hcok⟩ := flushBookIntoCat_parts hcc (h2 _ hcc) h3 h4
      rw [hf] at hc
      injection hc with hcc'
      subst hcc'
      exact hcok
  · intro b hb
    rw [f.2.2.1] at hb
    injection hb with hb
    subst hb
    intro s hs
    exact absurd hs (List.not_mem_nil s)
  · intro s hs
    rw [f.2.2.2] at hs
    exact Option.noConfusion hs

lemma partsOK_doCat (st : ParserState) (t : String) (h : partsOK st) :
    partsOK (doCat st t) := by
  have f := doCat_fields st t
  refine ⟨?_, ?_, ?_, ?_⟩
  · rw [f.1]
    exact libPartsOK_render h
  · intro c hc
    rw [f.2.1] at hc
    injection hc with hc
    subst hc
    intro b hb
    exact absurd hb (List.not_mem_nil b)
  · intro b hb
    rw [f.2.2.1] at hb
    exact Option.noConfusion hb
  · intro s hs
    rw [f.2.2.2] at hs
    exact Option.noConfusion hs

lemma partsOK_doDelim (st : ParserState) (h : partsOK st) :
    partsOK (doDelim st) := by
  obtain ⟨h1, h2, h3, h4⟩ := h
  have f := doDelim_fields st
  refine ⟨?_, ?_, ?_, ?_⟩
  · rw [f.1]
    exact h1
  · intro c hc
    rw [f.2.1] at hc
    exact h2 c hc
  · intro b hb
    rw [f.2.2.1] at hb
    exact h3 b hb
  · intro s hs
    rw [f.2.2.2.2] at hs
    right
    constructor
    · show (flushPartIntoSection st).isSome = true
      rw [hs]
      rfl
    · rfl

lemma partsOK_setLang (st : ParserState) (lang : Language) (h : partsOK st) :
    partsOK (setLang st lang) :=
  h

lemma doContent_isSome (st : ParserState) (t : String)
    (h : st.currentPart.isSome = true) :
    (doContent st t).currentPart.isSome = true := by
  unfold doContent
  cases hl : st.currentLang <;> cases hp : st.currentPart <;> simp_all

lemma partsOK_doContent (st : ParserState) (t : String) (h : partsOK st) :
    partsOK (doContent st t) := by
  obtain ⟨h1, h2, h3, h4⟩ := h
  have f := doContent_fields st t
  refine ⟨?_, ?_, ?_, ?_⟩
  · rw [f.1]
    exact h1
  · intro c hc
    rw [f.2.1] at hc
    exact h2 c hc
  · intro b hb
    rw [f.2.2.2.1] at hb
    exact h3 b hb
  · intro s hs
    rw [f.2.2.2.2.1] at hs
    rcases h4 s hs with hone | ⟨hpa, hps⟩
    · exact Or.inl hone
    · right
      rw [f.2.2.2.2.2.2]
      exact ⟨hpa, doContent_isSome st t hps⟩

lemma stepTrimmed_empty_cases (s : ParserState) :
    stepTrimmed s "" = s ∨ stepTrimmed s "" = doContent s "" := by
  have hd : dispatchTrimmed s "" = doContent s "" := by
    unfold dispatchTrimmed
    rw [if_neg (by decide), if_neg (by decide), if_neg (by decide),
      if_neg (by decide), if_neg (by decide), if_neg (by decide),
      if_neg (by decide), if_neg (by decide), if_neg (by decide)]
  unfold stepTrimmed
  by_cases hg : ("" : String) = "" ∧ s.currentLang = none
  · rw [if_pos hg]
    exact Or.inl rfl
  · rw [if_neg hg, hd]
    exact Or.inr rfl

set_option maxHeartbeats 1000000 in
lemma partsOK_step (st : ParserState) (t : String) (h : partsOK st) :
    partsOK (stepTrimmed st t) := by
  by_cases ht : t = ""
  · subst ht
    rcases stepTrimmed_empty_cases st with hc | hc
    · rw [hc]
      exact h
    · rw [hc]
      exact partsOK_doContent st "" h
  · rw [stepTrimmed_eq_dispatch st t ht]
    unfold dispatchTrimmed
    split_ifs
    · exact partsOK_doSection st t h
    · exact partsOK_doBook st t h
    · exact partsOK_doCat st t h
    · exact partsOK_doDelim st h
    · exact partsOK_setLang st _ h
    · exact partsOK_setLang st _ h
    · exact partsOK_setLang st _ h
    · exact partsOK_setLang st _ h
    · exact partsOK_setLang st _ h
    · exact partsOK_doContent st t h

lemma partsOK_initState : partsOK initState :=
  ⟨fun c hc => absurd hc (List.not_mem_nil c),
   fun _ hc => Option.noConfusion hc,
   fun _ hb => Option.noConfusion hb,
   fun _ hs => Option.noConfusion hs⟩

lemma partsOK_foldl (ls : List String) (st : ParserState) (h : partsOK st) :
    partsOK (List.foldl stepLine st ls) := by
  induction ls generalizing st with
  | nil => exact h
  | cons l ls ih =>
    rw [List.foldl_cons]
    exact ih _ (partsOK_step st (jsTrim l) h)

/-- C8: every section heading immediately creates an initial part, so every
section in the library produced by any parse holds at least one part; the
concrete conjunct shows a content line before any `---` delimiter landing in
that first part. -/
theorem section_has_initial_part :
    (∀ (text : String) (c : CategoryItem) (b : BookItem) (s : LiturgySection),
      c ∈ parseTextToLibrary text → b ∈ c.children → s ∈ b.sections →
      s.parts ≠ []) ∧
    parseTextToLibrary "# C\n## B\n### S\n[EN]\nHello" =
      [⟨"cat-c", "C",
        [⟨"book-c-b", "B",
          [⟨"sec-b-s", "S",
            [⟨"part-sec-b-s-1", "prayer",
              [(Language.ENGLISH, ["Hello"])]⟩]⟩]⟩]⟩] := by
  constructor
  · intro text c b s hc hb hs
    have hlib : libPartsOK (parseTextToLibrary text) := by
      unfold parseTextToLibrary
      split_ifs
      · intro c hc
        exact absurd hc (List.not_mem_nil c)
      · exact libPartsOK_render (partsOK_foldl _ _ partsOK_initState)
    exact hlib c hc b hb s hs
  · rfl

/-- Witness for C8: the invariant applied to the minimal concrete parse. -/
theorem section_has_initial_part_witness :
    (⟨"sec-b-s", "S",
      [⟨"part-sec-b-s-1", "prayer", [(Language.ENGLISH, ["Hello"])]⟩]⟩ :
        LiturgySection).parts ≠ [] :=
  section_has_initial_part.1 "# C\n## B\n### S\n[EN]\nHello"
    ⟨"cat-c", "C",
      [⟨"book-c-b", "B",
        [⟨"sec-b-s", "S",
          [⟨"part-sec-b-s-1", "prayer", [(Language.ENGLISH, ["Hello"])]⟩]⟩]⟩]⟩
    ⟨"book-c-b", "B",
      [⟨"sec-b-s", "S",
        [⟨"part-sec-b-s-1", "prayer", [(Language.ENGLISH, ["Hello"])]⟩]⟩]⟩
    ⟨"sec-b-s", "S",
      [⟨"part-sec-b-s-1", "prayer", [(Language.ENGLISH, ["Hello"])]⟩]⟩
    (by rw [show parseTextToLibrary "# C\n## B\n### S\n[EN]\nHello" =
        [⟨"cat-c", "C",
          [⟨"book-c-b", "B",
            [⟨"sec-b-s", "S",
              [⟨"part-sec-b-s-1", "prayer",
                [(Language.ENGLISH, ["Hello"])]⟩]⟩]⟩]⟩]
        from rfl]; simp)
    (by simp) (by simp)

end ContentService
